import Mathlib

set_option maxRecDepth 100000

/-!
Verification development for the FIDO client orchestration layer
(`fido_host/client.py`).  The Python source is shallowly embedded: byte
strings become `List Nat`, stateful device interaction becomes explicit
oracles plus a trace of issued commands, and Python exceptions become an
explicit `Err` sum type threaded through `Except`.

External collaborators of the client module (the crypto primitives, the
CBOR/JSON codecs, the transport classes and the data classes of the
`fido_host.fido2` / `fido_host.u2f` / `fido_host.utils` modules) are not
part of the source under scrutiny; where the client's behaviour depends on
them they are modelled from the specification, and each such definition is
marked accordingly in its doc comment.
-/

/-- Byte strings are lists of naturals; every element is understood to be
below 256. -/
abbrev Bytes := List Nat

/-- Modelled from the spec: 2^32, the modulus of 32-bit words used by
SHA-256. -/
def M32 : Nat := 4294967296

/-- Reduce a natural to a 32-bit word. -/
def m32 (x : Nat) : Nat := x % M32

/-- Modelled from the spec: 32-bit right rotation. -/
def rotr (n x : Nat) : Nat := m32 ((x >>> n) ||| (x <<< (32 - n)))

/-- SHA-256 big Sigma0. -/
def shaS0 (x : Nat) : Nat := (rotr 2 x) ^^^ (rotr 13 x) ^^^ (rotr 22 x)

/-- SHA-256 big Sigma1. -/
def shaS1 (x : Nat) : Nat := (rotr 6 x) ^^^ (rotr 11 x) ^^^ (rotr 25 x)

/-- SHA-256 small sigma0. -/
def shals0 (x : Nat) : Nat := (rotr 7 x) ^^^ (rotr 18 x) ^^^ (x >>> 3)

/-- SHA-256 small sigma1. -/
def shals1 (x : Nat) : Nat := (rotr 17 x) ^^^ (rotr 19 x) ^^^ (x >>> 10)

/-- SHA-256 choice function; complement of a 32-bit word is xor with
`M32 - 1`. -/
def shaCh (x y z : Nat) : Nat := (x &&& y) ^^^ ((x ^^^ (M32 - 1)) &&& z)

/-- SHA-256 majority function. -/
def shaMaj (x y z : Nat) : Nat := (x &&& y) ^^^ (x &&& z) ^^^ (y &&& z)

/-- Modelled from the spec: the 64 SHA-256 round constants. -/
def shaK : List Nat :=
  [1116352408, 1899447441, 3049323471, 3921009573, 961987163,
   1508970993, 2453635748, 2870763221, 3624381080, 310598401,
   607225278, 1426881987, 1925078388, 2162078206, 2614888103,
   3248222580, 3835390401, 4022224774, 264347078, 604807628,
   770255983, 1249150122, 1555081692, 1996064986, 2554220882,
   2821834349, 2952996808, 3210313671, 3336571891, 3584528711,
   113926993, 338241895, 666307205, 773529912, 1294757372,
   1396182291, 1695183700, 1986661051, 2177026350, 2456956037,
   2730485921, 2820302411, 3259730800, 3345764771, 3516065817,
   3600352804, 4094571909, 275423344, 430227734, 506948616,
   659060556, 883997877, 958139571, 1322822218, 1537002063,
   1747873779, 1955562222, 2024104815, 2227730452, 2361852424,
   2428436474, 2756734187, 3204031479, 3329325298]

/-- Modelled from the spec: the SHA-256 initial hash state. -/
def shaH0 : List Nat :=
  [1779033703, 3144134277, 1013904242, 2773480762,
   1359893119, 2600822924, 528734635, 1541459225]

/-- Big-endian byte serialisation of a natural into `n` bytes. -/
def beBytes : Nat → Nat → Bytes
  | 0, _ => []
  | n + 1, v => beBytes n (v >>> 8) ++ [v % 256]

/-- Modelled from the spec: SHA-256 message padding to a multiple of 64
bytes. -/
def sha256Pad (msg : Bytes) : Bytes :=
  let l := msg.length
  let k := (64 - ((l + 9) % 64)) % 64
  msg ++ [0x80] ++ List.replicate k 0 ++ beBytes 8 (l * 8)

/-- Group bytes into big-endian 32-bit words. -/
def bytesToWords : Bytes → List Nat
  | a :: b :: c :: d :: rest =>
      ((a <<< 24) ||| (b <<< 16) ||| (c <<< 8) ||| d) :: bytesToWords rest
  | _ => []

/-- Modelled from the spec: extend a 16-word block to the 64-word SHA-256
message schedule. -/
def shaSchedule (block : List Nat) : List Nat :=
  (List.range 48).foldl
    (fun w _ =>
      w ++ [m32 (w.getD (w.length - 16) 0 + shals0 (w.getD (w.length - 15) 0) +
                 w.getD (w.length - 7) 0 + shals1 (w.getD (w.length - 2) 0))])
    block

/-- One SHA-256 round on the 8-word working state. -/
def shaRound (st : List Nat) (kw : Nat × Nat) : List Nat :=
  let a := st.getD 0 0
  let b := st.getD 1 0
  let c := st.getD 2 0
  let d := st.getD 3 0
  let e := st.getD 4 0
  let f := st.getD 5 0
  let g := st.getD 6 0
  let h := st.getD 7 0
  let t1 := m32 (h + shaS1 e + shaCh e f g + kw.1 + kw.2)
  let t2 := m32 (shaS0 a + shaMaj a b c)
  [m32 (t1 + t2), a, b, c, m32 (d + t1), e, f, g]

/-- Modelled from the spec: SHA-256 compression of one 16-word block into
the running hash state. -/
def shaCompress (H : List Nat) (block : List Nat) : List Nat :=
  let w := shaSchedule block
  let fin := (List.zip shaK w).foldl shaRound H
  List.zipWith (fun x y => m32 (x + y)) H fin

/-- Iterate the compression function over `n` 16-word blocks. -/
def shaLoop : Nat → List Nat → List Nat → List Nat
  | 0, H, _ => H
  | n + 1, H, ws => shaLoop n (shaCompress H (ws.take 16)) (ws.drop 16)

/-- Modelled from the spec: SHA-256 of a byte string (the `sha256` helper
of `fido_host.utils`, an external collaborator of the client module). -/
def sha256 (msg : Bytes) : Bytes :=
  let ws := bytesToWords (sha256Pad msg)
  (shaLoop (ws.length / 16) shaH0 ws).foldr (fun w acc => beBytes 4 w ++ acc) []

/-- Modelled from the spec: HMAC-SHA-256 (the `hmac_sha256` helper of
`fido_host.utils`). -/
def hmacSha256 (key msg : Bytes) : Bytes :=
  let k0 := if 64 < key.length then sha256 key else key
  let k1 := k0 ++ List.replicate (64 - k0.length) 0
  sha256 ((k1.map (fun b => b ^^^ 0x5c)) ++
          sha256 ((k1.map (fun b => b ^^^ 0x36)) ++ msg))

/-- UTF-8 bytes of a string; all strings appearing in the claims are
ASCII, for which the code-point list coincides with the UTF-8 bytes. -/
def strBytes (s : String) : Bytes := s.data.map Char.toNat

/-- The 32-zero-byte dummy challenge parameter used by check-only
authenticate probes (`dummy_param = b'\0'*32` in the source). -/
def zeros32 : Bytes := List.replicate 32 0

/-- The 16-zero-byte aaguid used in CTAP1 attestation synthesis. -/
def zeros16 : Bytes := List.replicate 16 0

/-- Modelled from the spec: the base64url alphabet. -/
def b64Alphabet : List Char :=
  "ABCDEFGHIJKLMNOPQRSTUVWXYZabcdefghijklmnopqrstuvwxyz0123456789-_".data

/-- Look up a 6-bit value in the base64url alphabet. -/
def b64Char (n : Nat) : Char := b64Alphabet.getD n 'A'

/-- Modelled from the spec: unpadded base64url encoding (the
`websafe_encode` helper of `fido_host.utils`). -/
def websafeEncode : Bytes → String
  | [] => ""
  | [a] =>
      String.mk [b64Char (a >>> 2), b64Char ((a &&& 3) <<< 4)]
  | [a, b] =>
      String.mk [b64Char (a >>> 2), b64Char (((a &&& 3) <<< 4) ||| (b >>> 4)),
                 b64Char ((b &&& 15) <<< 2)]
  | a :: b :: c :: rest =>
      String.mk [b64Char (a >>> 2), b64Char (((a &&& 3) <<< 4) ||| (b >>> 4)),
                 b64Char (((b &&& 15) <<< 2) ||| (c >>> 6)),
                 b64Char (c &&& 63)] ++ websafeEncode rest

/-- JSON values appearing in client data mappings: string fields, and the
empty object used for `clientExtensions`. -/
inductive JVal
  | str (s : String)
  | emptyObj
deriving DecidableEq

/-- Serialise one JSON value. -/
def JVal.dump : JVal → String
  | .str s => "\"" ++ s ++ "\""
  | .emptyObj => "\x7b\x7d"

/-- Modelled from the spec: `json.dumps` of a string-keyed mapping with
the Python default separators, preserving insertion order.  The claims
exercise only field values that need no JSON escaping. -/
def jsonDumps (fields : List (String × JVal)) : String :=
  "\x7b" ++
    String.intercalate ", "
      (fields.map (fun kv => "\"" ++ kv.1 ++ "\": " ++ kv.2.dump)) ++
  "\x7d"

/-- First value bound to a key in a JSON mapping. -/
def jLookup (key : String) : List (String × JVal) → Option JVal
  | [] => none
  | kv :: rest => if kv.1 = key then some kv.2 else jLookup key rest

/-- The client-facing error codes of `ClientError.ERR`. -/
inductive ClientErrCode
  | OTHER_ERROR
  | BAD_REQUEST
  | CONFIGURATION_UNSUPPORTED
  | DEVICE_INELIGIBLE
  | TIMEOUT
deriving DecidableEq

/-- The CTAP error codes raised by the client itself. -/
inductive CtapErrCode
  | UNSUPPORTED_OPTION
  | CREDENTIAL_EXCLUDED
  | NO_CREDENTIALS
deriving DecidableEq

/-- The exceptions the embedded client code can raise: transport-level
APDU errors carrying their status word, `ClientError`s, `CtapError`s,
Python `ValueError`s and Python `KeyError`s. -/
inductive Err
  | apdu (code : Nat)
  | client (code : ClientErrCode)
  | ctap (code : CtapErrCode)
  | valueError (msg : String)
  | keyError (key : String)
deriving DecidableEq

/-- Modelled from the spec: the `APDU.USE_NOT_SATISFIED` status word of
`fido_host.u2f` ("user presence not yet supplied, retry"). -/
def USE_NOT_SATISFIED : Nat := 0x6985

/-- Decidable equality of `Except` values, so that concrete runs of the
embedded client evaluate inside the kernel. -/
instance {ε α : Type} [DecidableEq ε] [DecidableEq α] :
    DecidableEq (Except ε α) := fun x y =>
  match x, y with
  | .ok a, .ok b =>
      if h : a = b then .isTrue (h ▸ rfl)
      else .isFalse (fun hc => h (Except.ok.inj hc))
  | .error a, .error b =>
      if h : a = b then .isTrue (h ▸ rfl)
      else .isFalse (fun hc => h (Except.error.inj hc))
  | .ok _, .error _ => .isFalse (fun hc => Except.noConfusion hc)
  | .error _, .ok _ => .isFalse (fun hc => Except.noConfusion hc)

/-- The client data blob.  The source class wraps the exact JSON byte
serialisation of a field mapping; since the JSON codec is an external
collaborator that round-trips, the embedding carries the parsed mapping
and recovers the bytes by serialisation. -/
structure ClientData where
  fields : List (String × JVal)
deriving DecidableEq

/-- The byte serialisation of a client data blob. -/
def ClientData.bytes (c : ClientData) : Bytes := strBytes (jsonDumps c.fields)

/-- The derived SHA-256 hash of a client data blob (`ClientData.hash`). -/
def ClientData.hash (c : ClientData) : Bytes := sha256 c.bytes

/-- The base64url form of a client data blob (`ClientData.b64`). -/
def ClientData.b64 (c : ClientData) : String := websafeEncode c.bytes

/-- Embeds `ClientData.build` followed by `ClientData.__init__`: the
mapping is serialised, parsed back, and `self.data['origin']` is read,
which raises `KeyError` when the mapping has no `origin` field. -/
def ClientData.build (fields : List (String × JVal)) : Except Err ClientData :=
  match jLookup "origin" fields with
  | some _ => .ok ⟨fields⟩
  | none => .error (.keyError "origin")

/-- The Python truthiness of `timeout or 30` in `_call_polling`: `None`
and `0` both fall back to the default 30-second budget. -/
def pyTimeoutBudget : Option ℚ → ℚ
  | none => 30
  | some t => if t = 0 then 30 else t

/-- A fuel bound strictly larger than the number of iterations the
polling loop can make, written with gcd-free `Nat` arithmetic so that
concrete polling runs reduce inside the kernel. -/
def pollFuel (delay budget : ℚ) : Nat :=
  (budget.num.toNat * delay.den) / (delay.num.toNat * budget.den) + 1

/-- One polling state: the driver is entered with a fuel bound (strictly
larger than the number of possible iterations) and the index `k` of the
next attempt.  The `Timeout` event of `fido_host.utils` is modelled from
the spec's polling-loop model: the event is set once the accumulated
waiting time reaches the budget, each `event.wait(poll_delay)` accounts
`poll_delay` seconds, and attempts themselves take no model time, so the
event is set at attempt `k` exactly when `k * delay ≥ budget`.  The
comparison is written by cross-multiplying the rationals' numerators and
denominators (`pollCond_iff` below proves it equal to `k * delay <
budget`) to keep it gcd-free. -/
def pollSteps (op : Nat → Except Nat α) (delay budget : ℚ) :
    Nat → Nat → Except Err α × Nat
  | 0, k => (.error (.client .TIMEOUT), k)
  | fuel + 1, k =>
      if (k : Int) * delay.num * budget.den < budget.num * delay.den then
        match op k with
        | .ok a => (.ok a, k + 1)
        | .error c =>
            if c = USE_NOT_SATISFIED then pollSteps op delay budget fuel (k + 1)
            else (.error (.apdu c), k + 1)
      else (.error (.client .TIMEOUT), k)

/-- Embeds `_call_polling`: the result of the polled operation together
with the number of attempts issued to the device.  `op k` is the typed
outcome of the `k`-th attempt (`.error c` is an `ApduError` with status
`c`, the only failures the wrapped transport calls raise). -/
def callPolling (pollDelay : ℚ) (timeout : Option ℚ) (op : Nat → Except Nat α) :
    Except Err α × Nat :=
  let budget := pyTimeoutBudget timeout
  pollSteps op pollDelay budget (pollFuel pollDelay budget) 0

/-- Modelled from the spec: the authenticate response of the CTAP1
transport (`user_presence: u8, counter: u32_be, signature`); `raw` is the
undecoded response whose base64url form legacy `sign` returns. -/
structure AuthResponse where
  user_presence : Nat
  counter : Nat
  signature : Bytes
  raw : Bytes
deriving DecidableEq

/-- Modelled from the spec: the registration response of the CTAP1
transport (`key_handle`, 65-byte `public_key`, `certificate`,
`signature`); `raw` is the undecoded response blob. -/
structure RegistrationData where
  key_handle : Bytes
  public_key : Bytes
  certificate : Bytes
  signature : Bytes
  raw : Bytes
deriving DecidableEq

/-- The commands a client run issues to a CTAP1 authenticator, with the
arguments the claims speak about. -/
inductive Ctap1Cmd
  | getVersion
  | register (challenge appParam : Bytes)
  | authenticate (challenge appParam keyHandle : Bytes) (checkOnly : Bool)
deriving DecidableEq

/-- A CTAP1 authenticator, as the oracle the embedded client consults:
`registerOutcome`/`authOutcome` give the typed outcome of the `k`-th
attempt of a command with the given arguments (`.error c` is an
`ApduError` with status word `c`).  Commands issued outside a polling
loop are single attempts at index 0. -/
structure Ctap1Device where
  version : String
  registerOutcome : Bytes → Bytes → Nat → Except Nat RegistrationData
  authOutcome : Bytes → Bytes → Bytes → Bool → Nat → Except Nat AuthResponse

/-- An app-id / rp-id verification function as stored on the clients: it
returns a boolean or raises (`.error ()`). -/
abbrev VerifyFn := String → String → Except Unit Bool

/-- Embeds `_verify_app_id` / `_verify_rp_id`: any raised exception or a
`False` answer falls through to `ClientError` `BAD_REQUEST`. -/
def verifyIdCheck (f : VerifyFn) (ident origin : String) : Except Err Unit :=
  match f ident origin with
  | .ok true => .ok ()
  | _ => .error (.client .BAD_REQUEST)

/-- A caller-supplied registered key of the legacy API.  The source keeps
`keyHandle` base64url-encoded and decodes it before use; the external
base64url codec round-trips, so the embedding carries the decoded
bytes. -/
structure RegisteredKey where
  version : String
  keyHandle : Bytes
  appId : Option String
deriving DecidableEq

/-- A caller-supplied register request of the legacy API. -/
structure RegisterRequest where
  version : String
  challenge : String
deriving DecidableEq

/-- The result dictionary of `U2fClient.register`. -/
structure U2fRegisterResult where
  registrationData : String
  clientData : String
deriving DecidableEq

/-- The result dictionary of `U2fClient.sign` (the source returns the
matching key's base64url `keyHandle`; the embedding carries its decoded
bytes). -/
structure U2fSignResult where
  clientData : String
  signatureData : String
  keyHandle : Bytes
deriving DecidableEq

/-- The legacy U2F client state: `poll_delay`, the bound CTAP1 transport,
the origin, and the stored verification function `_verify`. -/
structure U2fClient where
  poll_delay : ℚ
  device : Ctap1Device
  origin : String
  verify : VerifyFn

/-- Embeds `U2fClient.__init__`.  `verifyAppIdExt` stands for the
module-level `verify_app_id` function imported from `fido_host.rpid`; the
source assigns `self._verify = verify_app_id`, ignoring the caller's
`verify` argument, and the embedding reproduces that assignment. -/
def U2fClient.init (verifyAppIdExt : VerifyFn) (device : Ctap1Device)
    (origin : String) (verify : VerifyFn) : U2fClient :=
  ⟨mkRat 1 4, device, origin, verifyAppIdExt⟩

/-- The check-only probe loop over `registered_keys` in
`U2fClient.register`: for each version-matching key the key's app id is
verified, then a check-only authenticate with the 32-zero-byte dummy
challenge is issued; a successful answer or `USE_NOT_SATISFIED` raises
`DEVICE_INELIGIBLE`, any other `ApduError` is swallowed and the next key
is tried. -/
def registerCheckKeys (c : U2fClient) (appId : String) :
    List RegisteredKey → Except Err Unit × List Ctap1Cmd
  | [] => (.ok (), [])
  | key :: rest =>
      if key.version = c.device.version then
        let keyAppId := key.appId.getD appId
        let appParam := sha256 (strBytes keyAppId)
        match verifyIdCheck c.verify keyAppId c.origin with
        | .error e => (.error e, [])
        | .ok _ =>
            let probe := Ctap1Cmd.authenticate zeros32 appParam key.keyHandle true
            match c.device.authOutcome zeros32 appParam key.keyHandle true 0 with
            | .ok _ => (.error (.client .DEVICE_INELIGIBLE), [probe])
            | .error code =>
                if code = USE_NOT_SATISFIED then
                  (.error (.client .DEVICE_INELIGIBLE), [probe])
                else
                  let r := registerCheckKeys c appId rest
                  (r.1, probe :: r.2)
      else registerCheckKeys c appId rest

/-- The `for ... else` selection of the first register request whose
version matches the device version. -/
def firstMatchingChallenge (version : String) :
    List RegisterRequest → Option String
  | [] => none
  | r :: rest =>
      if r.version = version then some r.challenge
      else firstMatchingChallenge version rest

/-- Embeds `U2fClient.register`, yielding the result (or raised
exception) together with the trace of commands issued to the
authenticator. -/
def U2fClient.register (c : U2fClient) (appId : String)
    (registerRequests : List RegisterRequest)
    (registeredKeys : List RegisteredKey) (timeout : Option ℚ) :
    Except Err U2fRegisterResult × List Ctap1Cmd :=
  match verifyIdCheck c.verify appId c.origin with
  | .error e => (.error e, [])
  | .ok _ =>
      match registerCheckKeys c appId registeredKeys with
      | (.error e, tr) => (.error e, Ctap1Cmd.getVersion :: tr)
      | (.ok _, tr) =>
          match firstMatchingChallenge c.device.version registerRequests with
          | none => (.error (.client .DEVICE_INELIGIBLE), Ctap1Cmd.getVersion :: tr)
          | some challenge =>
              match ClientData.build
                  [("typ", .str "navigator.id.finishEnrollment"),
                   ("challenge", .str challenge),
                   ("origin", .str c.origin)] with
              | .error e => (.error e, Ctap1Cmd.getVersion :: tr)
              | .ok cd =>
                  let appParam := sha256 (strBytes appId)
                  let r := callPolling c.poll_delay timeout
                    (fun k => c.device.registerOutcome cd.hash appParam k)
                  let tr2 := Ctap1Cmd.getVersion :: tr ++
                    List.replicate r.2 (Ctap1Cmd.register cd.hash appParam)
                  match r.1 with
                  | .error e => (.error e, tr2)
                  | .ok regData =>
                      (.ok ⟨websafeEncode regData.raw, cd.b64⟩, tr2)

/-- The key loop of `U2fClient.sign`: the first version-matching key whose
polled authenticate succeeds wins; an `ApduError` surfaced by the polling
driver is swallowed and the next key is tried, while any other exception
(`BAD_REQUEST` from verification, `TIMEOUT` from the driver) propagates. -/
def signLoop (c : U2fClient) (cd : ClientData) (appId : String)
    (timeout : Option ℚ) :
    List RegisteredKey → Except Err (AuthResponse × RegisteredKey) × List Ctap1Cmd
  | [] => (.error (.client .DEVICE_INELIGIBLE), [])
  | key :: rest =>
      if key.version = c.device.version then
        let keyAppId := key.appId.getD appId
        match verifyIdCheck c.verify keyAppId c.origin with
        | .error e => (.error e, [])
        | .ok _ =>
            let appParam := sha256 (strBytes keyAppId)
            let r := callPolling c.poll_delay timeout
              (fun k => c.device.authOutcome cd.hash appParam key.keyHandle false k)
            let tr := List.replicate r.2
              (Ctap1Cmd.authenticate cd.hash appParam key.keyHandle false)
            match r.1 with
            | .ok resp => (.ok (resp, key), tr)
            | .error (.apdu _) =>
                let r2 := signLoop c cd appId timeout rest
                (r2.1, tr ++ r2.2)
            | .error e => (.error e, tr)
      else signLoop c cd appId timeout rest

/-- Embeds `U2fClient.sign`, yielding the result (or raised exception)
together with the trace of commands issued to the authenticator. -/
def U2fClient.sign (c : U2fClient) (appId challenge : String)
    (registeredKeys : List RegisteredKey) (timeout : Option ℚ) :
    Except Err U2fSignResult × List Ctap1Cmd :=
  match ClientData.build
      [("typ", .str "navigator.id.getAssertion"),
       ("challenge", .str challenge),
       ("origin", .str c.origin)] with
  | .error e => (.error e, [])
  | .ok cd =>
      match signLoop c cd appId timeout registeredKeys with
      | (.error e, tr) => (.error e, Ctap1Cmd.getVersion :: tr)
      | (.ok rk, tr) =>
          (.ok ⟨cd.b64, websafeEncode rk.1.raw, rk.2.keyHandle⟩,
           Ctap1Cmd.getVersion :: tr)

/-- A value of a COSE key map entry: an integer or a byte string. -/
inductive CoseVal
  | int (z : Int)
  | bytes (b : Bytes)
deriving DecidableEq

/-- Modelled from the spec: the attested credential data assembled by
`AttestedCredentialData.create` of `fido_host.fido2` — aaguid, credential
id and the COSE public key map (its byte serialisation is the external
module's concern). -/
structure AttestedCredentialData where
  aaguid : Bytes
  credId : Bytes
  coseKey : List (Int × CoseVal)
deriving DecidableEq

/-- Builds attested credential data as `AttestedCredentialData.create`
does. -/
def AttestedCredentialData.create (aaguid credId : Bytes)
    (coseKey : List (Int × CoseVal)) : AttestedCredentialData :=
  ⟨aaguid, credId, coseKey⟩

/-- Modelled from the spec: the authenticator data assembled by
`AuthenticatorData.create` of `fido_host.fido2` — rpIdHash, flags byte,
big-endian signCount and optional attested credential data. -/
structure AuthenticatorData where
  rpIdHash : Bytes
  flags : Nat
  signCount : Nat
  credData : Option AttestedCredentialData
deriving DecidableEq

/-- Builds authenticator data as `AuthenticatorData.create` does; the
source's call without credential data passes `none`. -/
def AuthenticatorData.create (rpIdHash : Bytes) (flags signCount : Nat)
    (credData : Option AttestedCredentialData) : AuthenticatorData :=
  ⟨rpIdHash, flags, signCount, credData⟩

/-- The attestation statement dictionary passed to
`AttestationObject.create` by the CTAP1 down-conversion. -/
structure AttStatement where
  x5c : List Bytes
  sig : Bytes
deriving DecidableEq

/-- Modelled from the spec: the CTAP2-shaped attestation object assembled
by `AttestationObject.create` of `fido_host.fido2`. -/
structure AttestationObject where
  fmt : String
  authData : AuthenticatorData
  attStmt : AttStatement
deriving DecidableEq

/-- Builds an attestation object as `AttestationObject.create` does. -/
def AttestationObject.create (fmt : String) (authData : AuthenticatorData)
    (attStmt : AttStatement) : AttestationObject :=
  ⟨fmt, authData, attStmt⟩

/-- A credential descriptor of a CTAP2-shaped exclude/allow list; the
CTAP1 down-converter reads `cred['id']` as bytes. -/
structure PublicKeyCred where
  type : String
  id : Bytes
deriving DecidableEq

/-- The relying party entity; the client reads only `rp['id']`. -/
structure RpEntity where
  id : String
deriving DecidableEq

/-- Modelled from the spec: the CTAP2-shaped assertion response built by
`AssertionResponse.create` for the CTAP1 down-conversion. -/
structure AssertionResponse where
  credential : PublicKeyCred
  authData : AuthenticatorData
  signature : Bytes
deriving DecidableEq

/-- Builds an assertion response as `AssertionResponse.create` does. -/
def AssertionResponse.create (credential : PublicKeyCred)
    (authData : AuthenticatorData) (signature : Bytes) : AssertionResponse :=
  ⟨credential, authData, signature⟩

/-- The CTAP1-bound `Fido2Client` state used by the down-conversion paths:
`ctap1_poll_delay` and the bound CTAP1 transport. -/
structure Fido2Client1 where
  ctap1_poll_delay : ℚ
  device : Ctap1Device

/-- The Python truthiness of an optional list (`not allow_list` is true
for both `None` and `[]`). -/
def pyListTruthy {α : Type} : Option (List α) → Bool
  | none => false
  | some l => !l.isEmpty

/-- The check-only probe loop over `exclude_list` in
`_ctap1_make_credential`: a successful answer or `USE_NOT_SATISFIED`
raises `CtapError` `CREDENTIAL_EXCLUDED`, any other `ApduError` is
swallowed and the next entry is tried. -/
def excludeProbe (c : Fido2Client1) (appParam : Bytes) :
    List PublicKeyCred → Except Err Unit × List Ctap1Cmd
  | [] => (.ok (), [])
  | cred :: rest =>
      let probe := Ctap1Cmd.authenticate zeros32 appParam cred.id true
      match c.device.authOutcome zeros32 appParam cred.id true 0 with
      | .ok _ => (.error (.ctap .CREDENTIAL_EXCLUDED), [probe])
      | .error code =>
          if code = USE_NOT_SATISFIED then
            (.error (.ctap .CREDENTIAL_EXCLUDED), [probe])
          else
            let r := excludeProbe c appParam rest
            (r.1, probe :: r.2)

/-- Embeds `_ctap1_make_credential`, yielding the synthesised attestation
object (or raised exception) together with the trace of commands issued
to the authenticator.  The `user`, `algos`, `extensions` and `pin`
parameters of the source are unused on this path and elided. -/
def ctap1MakeCredential (c : Fido2Client1) (clientData : ClientData)
    (rp : RpEntity) (excludeList : Option (List PublicKeyCred))
    (rk uv : Bool) (timeout : Option ℚ) :
    Except Err AttestationObject × List Ctap1Cmd :=
  if rk || uv then (.error (.ctap .UNSUPPORTED_OPTION), [])
  else
    let appParam := sha256 (strBytes rp.id)
    match excludeProbe c appParam (excludeList.getD []) with
    | (.error e, tr) => (.error e, tr)
    | (.ok _, tr) =>
        let r := callPolling c.ctap1_poll_delay timeout
          (fun k => c.device.registerOutcome clientData.hash appParam k)
        let tr2 := tr ++ List.replicate r.2 (Ctap1Cmd.register clientData.hash appParam)
        match r.1 with
        | .error e => (.error e, tr2)
        | .ok reg =>
            (.ok (AttestationObject.create "fido-u2f"
              (AuthenticatorData.create appParam 0x41 0
                (some (AttestedCredentialData.create zeros16 reg.key_handle
                  [(1, .int 2), (3, .int (-7)), (-1, .int 1),
                   (-2, .bytes ((reg.public_key.drop 1).take 32)),
                   (-3, .bytes ((reg.public_key.drop 33).take 32))])))
              ⟨[reg.certificate], reg.signature⟩), tr2)

/-- The allow-list loop of `_ctap1_get_assertion`: the first credential
whose polled authenticate succeeds yields a single synthesised assertion
response; an `ApduError` surfaced by the polling driver is swallowed and
the next credential is tried, any other exception propagates, and an
exhausted list raises `CtapError` `NO_CREDENTIALS`. -/
def assertLoop (c : Fido2Client1) (clientParam appParam : Bytes)
    (timeout : Option ℚ) :
    List PublicKeyCred → Except Err (List AssertionResponse) × List Ctap1Cmd
  | [] => (.error (.ctap .NO_CREDENTIALS), [])
  | cred :: rest =>
      let r := callPolling c.ctap1_poll_delay timeout
        (fun k => c.device.authOutcome clientParam appParam cred.id false k)
      let tr := List.replicate r.2
        (Ctap1Cmd.authenticate clientParam appParam cred.id false)
      match r.1 with
      | .ok resp =>
          (.ok [AssertionResponse.create cred
            (AuthenticatorData.create appParam (resp.user_presence &&& 0x01)
              resp.counter none)
            resp.signature], tr)
      | .error (.apdu _) =>
          let r2 := assertLoop c clientParam appParam timeout rest
          (r2.1, tr ++ r2.2)
      | .error e => (.error e, tr)

/-- Embeds `_ctap1_get_assertion`, yielding the assertion list (or raised
exception) together with the trace of commands issued to the
authenticator.  The `extensions` and `pin` parameters of the source are
unused on this path and elided. -/
def ctap1GetAssertion (c : Fido2Client1) (clientData : ClientData)
    (rpId : String) (allowList : Option (List PublicKeyCred))
    (rk uv : Bool) (timeout : Option ℚ) :
    Except Err (List AssertionResponse) × List Ctap1Cmd :=
  if rk || uv || !pyListTruthy allowList then
    (.error (.ctap .UNSUPPORTED_OPTION), [])
  else
    let appParam := sha256 (strBytes rpId)
    assertLoop c clientData.hash appParam timeout (allowList.getD [])

/-- Modelled from the spec: the device capability record returned by
`get_info` — supported PIN protocol versions and the `clientPin` entry of
the options map (absent, or set with a boolean). -/
structure AuthenticatorInfo where
  pin_protocols : List Nat
  clientPin : Option Bool
deriving DecidableEq

/-- A CTAP2 assertion response: the optional `number_of_credentials`
field the client reads, with an opaque payload distinguishing
responses. -/
structure Ctap2Assertion where
  number_of_credentials : Option Nat
  payload : Nat
deriving DecidableEq

/-- The commands a client run issues to a CTAP2 authenticator, with the
arguments the claims speak about (`options` is the options dictionary the
source builds from `rk`/`uv`). -/
inductive Ctap2Cmd
  | getInfo
  | getPinToken (pin : String)
  | makeCredential (clientDataHash : Bytes) (pinAuth : Option Bytes)
      (pinProtocol : Option Nat) (options : Option (List (String × Bool)))
  | getAssertion (rpId : String) (clientDataHash : Bytes)
      (pinAuth : Option Bytes) (pinProtocol : Option Nat)
      (options : Option (List (String × Bool)))
  | getNextAssertion
deriving DecidableEq

/-- A CTAP2 authenticator, as the oracle the embedded client consults.
`pinToken` is the per-session token the PIN protocol derives for a given
PIN (the ECDH exchange inside `PinProtocolV1.get_pin_token` is the
external module's concern); `nextAssertions k` is the response to the
`k`-th `get_next_assertion` call of a run. -/
structure Ctap2Device where
  info : AuthenticatorInfo
  pinToken : String → Bytes
  credResult : AttestationObject
  assertResult : Ctap2Assertion
  nextAssertions : Nat → Ctap2Assertion

/-- The CTAP2-bound `Fido2Client` state used by the modern paths. -/
structure Fido2Client2 where
  device : Ctap2Device

/-- The Python truthiness of the optional `pin` string argument (`if
pin:` is false for `None` and for the empty string). -/
def pyStrTruthy : Option String → Bool
  | none => false
  | some s => s ≠ ""

/-- The Python truthiness of `info.options.get('clientPin')`. -/
def pyOptBoolTruthy : Option Bool → Bool
  | some b => b
  | none => false

/-- The options dictionary built by both CTAP2 paths: omitted when
neither `rk` nor `uv` is requested, else holding exactly the true
flags. -/
def mkOptions (rk uv : Bool) : Option (List (String × Bool)) :=
  if !(rk || uv) then none
  else some ((if rk then [("rk", true)] else []) ++
             (if uv then [("uv", true)] else []))

/-- The outcome of the shared PIN/UV policy preamble of both CTAP2 paths:
either a raised `ValueError`, or the `pin_auth`/`pin_protocol` pair to
send, together with the trace of PIN-protocol commands issued. -/
def ctap2PinPolicy (dev : Ctap2Device) (clientDataHash : Bytes)
    (pin : Option String) :
    Except Err (Option Bytes × Option Nat) × List Ctap2Cmd :=
  if pyStrTruthy pin then
    if 1 ∈ dev.info.pin_protocols then
      let s := pin.getD ""
      let pinAuth := (hmacSha256 (dev.pinToken s) clientDataHash).take 16
      (.ok (some pinAuth, some 1), [Ctap2Cmd.getPinToken s])
    else (.error (.valueError "Device does not support PIN protocol 1!"), [])
  else if pyOptBoolTruthy dev.info.clientPin then
    (.error (.valueError "PIN required!"), [])
  else (.ok (none, none), [])

/-- Embeds `_ctap2_make_credential`, yielding the attestation object the
device returns (or the raised exception) together with the trace of
commands issued to the authenticator.  The `rp`, `user`, `algos`,
`exclude_list` and `extensions` arguments are passed through to the
transport verbatim and are elided from the command record. -/
def ctap2MakeCredential (c : Fido2Client2) (clientData : ClientData)
    (rk uv : Bool) (pin : Option String) :
    Except Err AttestationObject × List Ctap2Cmd :=
  match ctap2PinPolicy c.device clientData.hash pin with
  | (.error e, tr) => (.error e, Ctap2Cmd.getInfo :: tr)
  | (.ok pa, tr) =>
      (.ok c.device.credResult,
       Ctap2Cmd.getInfo :: tr ++
         [Ctap2Cmd.makeCredential clientData.hash pa.1 pa.2 (mkOptions rk uv)])

/-- The Python expression `(x or 1)` on the optional
`number_of_credentials` field: `None` and `0` both give 1. -/
def pyOrOne : Option Nat → Nat
  | none => 1
  | some n => if n = 0 then 1 else n

/-- Embeds `_ctap2_get_assertion`, yielding the assertion list (or the
raised exception) together with the trace of commands issued to the
authenticator.  The `allow_list` and `extensions` arguments are passed
through to the transport verbatim and are elided from the command
record. -/
def ctap2GetAssertion (c : Fido2Client2) (clientData : ClientData)
    (rpId : String) (rk uv : Bool) (pin : Option String) :
    Except Err (List Ctap2Assertion) × List Ctap2Cmd :=
  match ctap2PinPolicy c.device clientData.hash pin with
  | (.error e, tr) => (.error e, Ctap2Cmd.getInfo :: tr)
  | (.ok pa, tr) =>
      let first := c.device.assertResult
      let extra := pyOrOne first.number_of_credentials - 1
      (.ok (first :: (List.range extra).map c.device.nextAssertions),
       Ctap2Cmd.getInfo :: tr ++
         [Ctap2Cmd.getAssertion rpId clientData.hash pa.1 pa.2 (mkOptions rk uv)] ++
         List.replicate extra Ctap2Cmd.getNextAssertion)

/-- An operation that fails with `USE_NOT_SATISFIED` on its first attempt
and succeeds on every later one. -/
def c2op : Nat → Except Nat Nat :=
  fun k => if k = 0 then .error USE_NOT_SATISFIED else .ok 7

/-- A CTAP1 authenticator that answers every command with the APDU status
0x6a80 (wrong data), used as a concrete device in witnesses. -/
def apduErrDev : Ctap1Device :=
  ⟨"U2F_V2", fun _ _ _ => .error 0x6a80, fun _ _ _ _ _ => .error 0x6a80⟩

/-- A concrete CTAP1-bound client for witnesses. -/
def cexClient1 : Fido2Client1 := ⟨mkRat 1 4, apduErrDev⟩

/-- A concrete client data blob of a `webauthn.create` ceremony for
witnesses. -/
def cexCD : ClientData :=
  ⟨[("type", .str "webauthn.create"), ("clientExtensions", .emptyObj),
    ("challenge", .str "AAAA"), ("origin", .str "https://example.com")]⟩

/-- A concrete CTAP2 authenticator for witnesses: PIN protocol 1
supported, no `clientPin` option entry, first assertion reporting three
credentials, and numbered follow-up assertions. -/
def cexC2Dev : Ctap2Device :=
  ⟨⟨[1], none⟩, fun _ => List.replicate 16 9,
   ⟨"packed", ⟨zeros32, 5, 7, none⟩, ⟨[], []⟩⟩,
   ⟨some 3, 11⟩, fun k => ⟨some 3, 100 + k⟩⟩

/-- A concrete CTAP2-bound client for witnesses. -/
def cexClient2 : Fido2Client2 := ⟨cexC2Dev⟩

/-- The assertion list the concrete C4 witness run returns. -/
def c4list : List Ctap2Assertion := [⟨some 3, 11⟩, ⟨some 3, 100⟩, ⟨some 3, 101⟩]

/-- The registration response of the concrete C1 witness device: key
handle `[1,2]`, a 65-byte uncompressed public key `04 ‖ X ‖ Y`,
certificate `[9,9]` and signature `[8,8]`. -/
def c1reg : RegistrationData :=
  ⟨[1, 2], 4 :: (List.replicate 32 5 ++ List.replicate 32 6), [9, 9], [8, 8],
   [3, 3]⟩

/-- A concrete CTAP1 authenticator whose register command succeeds
immediately. -/
def c1dev : Ctap1Device :=
  ⟨"U2F_V2", fun _ _ _ => .ok c1reg, fun _ _ _ _ _ => .error 0x6a80⟩

/-- A concrete CTAP1-bound client for the C1 witness. -/
def c1client : Fido2Client1 := ⟨mkRat 1 4, c1dev⟩

/-- The attestation object the concrete C1 witness run synthesises. -/
def c1att : AttestationObject :=
  ⟨"fido-u2f",
   ⟨sha256 (strBytes "example.com"), 0x41, 0,
    some ⟨zeros16, [1, 2],
      [(1, .int 2), (3, .int (-7)), (-1, .int 1),
       (-2, .bytes (List.replicate 32 5)), (-3, .bytes (List.replicate 32 6))]⟩⟩,
   ⟨[[9, 9]], [8, 8]⟩⟩

/-- A verification function accepting everything, standing in for the
external `verify_app_id` in concrete runs. -/
def acceptAll : VerifyFn := fun _ _ => .ok true

/-- A concrete CTAP1 authenticator whose check-only probes answer
`USE_NOT_SATISFIED` (credential already present). -/
def c7dev : Ctap1Device :=
  ⟨"U2F_V2", fun _ _ _ => .ok c1reg, fun _ _ _ _ _ => .error USE_NOT_SATISFIED⟩

/-- A concrete legacy client for the C7 witness. -/
def c7client : U2fClient := U2fClient.init acceptAll c7dev "https://example.com" acceptAll

/-- A version-matching registered key for the C7 witness. -/
def c7key : RegisteredKey := ⟨"U2F_V2", [1, 2], none⟩

/-- The amended challenge-parameter invariant: non-check-only `register`
and `authenticate` commands carry the client data hash as their challenge
parameter, while check-only probes carry the 32-zero-byte dummy. -/
def challengeConforms (h : Bytes) : Ctap1Cmd → Prop
  | .getVersion => True
  | .register ch _ => ch = h
  | .authenticate ch _ _ co => ch = (if co then zeros32 else h)

/-- The client data blob `U2fClient.sign` builds for a given origin and
challenge. -/
def u2fSignClientData (origin challenge : String) : ClientData :=
  ⟨[("typ", .str "navigator.id.getAssertion"), ("challenge", .str challenge),
    ("origin", .str origin)]⟩

/-- The client data blob `U2fClient.register` builds for a given origin
and selected challenge. -/
def u2fRegisterClientData (origin challenge : String) : ClientData :=
  ⟨[("typ", .str "navigator.id.finishEnrollment"), ("challenge", .str challenge),
    ("origin", .str origin)]⟩

/-- A concrete exclude-list credential descriptor for the C9 runs. -/
def c9cred : PublicKeyCred := ⟨"public-key", [1, 2]⟩

/-- Sanity check of the SHA-256 model against the standard test vector for
the message "abc". -/
example :
    sha256 (strBytes "abc") =
      [0xba, 0x78, 0x16, 0xbf, 0x8f, 0x01, 0xcf, 0xea, 0x41, 0x41, 0x40, 0xde,
       0x5d, 0xae, 0x22, 0x23, 0xb0, 0x03, 0x61, 0xa3, 0x96, 0x17, 0x7a, 0x9c,
       0xb4, 0x10, 0xff, 0x61, 0xf2, 0x00, 0x15, 0xad] := by decide

theorem rat_mul_den (q : ℚ) : q * (q.den : ℚ) = (q.num : ℚ) := by
  have hden : (0 : ℚ) < (q.den : ℚ) := by exact_mod_cast q.pos
  nth_rewrite 1 [← Rat.num_div_den q]
  exact div_mul_cancel₀ _ (ne_of_gt hden)

theorem pollCond_iff (k : Nat) (delay budget : ℚ) :
    ((k : Int) * delay.num * budget.den < budget.num * delay.den) ↔
      ((k : ℚ) * delay < budget) := by
  have hbd : (0 : ℚ) < (budget.den : ℚ) := by exact_mod_cast budget.pos
  have hdd : (0 : ℚ) < (delay.den : ℚ) := by exact_mod_cast delay.pos
  rw [show ((k : ℚ) * delay < budget) ↔
      ((k : ℚ) * delay * budget.den < budget * budget.den) from
      (mul_lt_mul_right hbd).symm]
  rw [rat_mul_den budget]
  rw [show ((k : ℚ) * delay * budget.den < (budget.num : ℚ)) ↔
      ((k : ℚ) * delay * budget.den * delay.den < (budget.num : ℚ) * delay.den) from
      (mul_lt_mul_right hdd).symm]
  rw [show (k : ℚ) * delay * budget.den * delay.den =
      (k : ℚ) * (delay * delay.den) * budget.den by ring]
  rw [rat_mul_den delay]
  constructor
  · intro h; exact_mod_cast h
  · intro h; exact_mod_cast h

theorem lt_pollFuel (k : Nat) (delay budget : ℚ) (hd : 0 < delay)
    (h : (k : ℚ) * delay < budget) : k < pollFuel delay budget := by
  have hint : (k : Int) * delay.num * budget.den < budget.num * delay.den :=
    (pollCond_iff k delay budget).mpr h
  have hdn : 0 < delay.num := Rat.num_pos.mpr hd
  have hbdpos : (0 : Int) < (budget.den : Int) := by exact_mod_cast budget.pos
  have hddpos : (0 : Int) < (delay.den : Int) := by exact_mod_cast delay.pos
  have hbn : 0 < budget.num := by
    nlinarith [hint, mul_nonneg (mul_nonneg (Int.natCast_nonneg k) hdn.le) hbdpos.le]
  have hdn2 : ((delay.num.toNat : Int)) = delay.num := Int.toNat_of_nonneg hdn.le
  have hbn2 : ((budget.num.toNat : Int)) = budget.num := Int.toNat_of_nonneg hbn.le
  have h2 : ((k * (delay.num.toNat * budget.den) : Nat) : Int) <
      ((budget.num.toNat * delay.den : Nat) : Int) := by
    push_cast [hdn2, hbn2]
    linarith [hint]
  have h3 : k * (delay.num.toNat * budget.den) < budget.num.toNat * delay.den := by
    exact_mod_cast h2
  have hDpos : 0 < delay.num.toNat * budget.den :=
    Nat.mul_pos (by omega) budget.pos
  rw [pollFuel, Nat.lt_succ_iff, Nat.le_div_iff_mul_le hDpos]
  exact h3.le

theorem pollSteps_ne_uns (op : Nat → Except Nat α) (delay budget : ℚ) :
    ∀ fuel k,
      (pollSteps op delay budget fuel k).1 ≠ .error (.apdu USE_NOT_SATISFIED) := by
  intro fuel
  induction fuel with
  | zero => intro k; simp [pollSteps]
  | succ n ih =>
      intro k
      simp only [pollSteps]
      split
      · cases hop : op k with
        | ok a => simp
        | error c =>
            by_cases hc : c = USE_NOT_SATISFIED
            · simpa [hc] using ih (k + 1)
            · simp [hc]
      · simp

theorem pollSteps_run_ok (op : Nat → Except Nat α) (delay budget : ℚ)
    (hd : 0 ≤ delay) :
    ∀ (m fuel j : Nat) (a : α),
      (((j + m : Nat) : ℚ) * delay < budget) →
      (∀ i, i < m → op (j + i) = .error USE_NOT_SATISFIED) →
      op (j + m) = .ok a → m < fuel →
      pollSteps op delay budget fuel j = (.ok a, j + m + 1) := by
  intro m
  induction m with
  | zero =>
      intro fuel j a hb huns hok hfuel
      obtain ⟨f, rfl⟩ : ∃ f, fuel = f + 1 := ⟨fuel - 1, by omega⟩
      simp only [pollSteps]
      rw [if_pos ((pollCond_iff j delay budget).mpr (by simpa using hb))]
      simp only [Nat.add_zero] at hok
      rw [hok]
  | succ n ih =>
      intro fuel j a hb huns hok hfuel
      obtain ⟨f, rfl⟩ : ∃ f, fuel = f + 1 := ⟨fuel - 1, by omega⟩
      simp only [pollSteps]
      have hstep : ((j : ℚ)) * delay < budget := by
        refine lt_of_le_of_lt ?_ hb
        have : (j : ℚ) ≤ ((j + (n + 1) : Nat) : ℚ) := by exact_mod_cast Nat.le_add_right _ _
        exact mul_le_mul_of_nonneg_right this hd
      rw [if_pos ((pollCond_iff j delay budget).mpr hstep)]
      have h0 : op j = .error USE_NOT_SATISFIED := by
        simpa using huns 0 (Nat.succ_pos n)
      rw [h0]
      simp only [if_pos rfl]
      have hres := ih f (j + 1) a
        (by
          have : ((j + 1) + n : Nat) = (j + (n + 1) : Nat) := by omega
          rw [this]; exact hb)
        (fun i hi => by
          have : ((j + 1) + i : Nat) = (j + (i + 1) : Nat) := by omega
          rw [this]; exact huns (i + 1) (by omega))
        (by
          have : ((j + 1) + n : Nat) = (j + (n + 1) : Nat) := by omega
          rw [this]; exact hok)
        (by omega)
      have heq2 : (j + 1) + n + 1 = j + (n + 1) + 1 := by omega
      rw [heq2] at hres
      exact hres

theorem pollSteps_run_err (op : Nat → Except Nat α) (delay budget : ℚ)
    (hd : 0 ≤ delay) :
    ∀ (m fuel j : Nat) (c : Nat),
      (((j + m : Nat) : ℚ) * delay < budget) →
      (∀ i, i < m → op (j + i) = .error USE_NOT_SATISFIED) →
      op (j + m) = .error c → c ≠ USE_NOT_SATISFIED → m < fuel →
      pollSteps op delay budget fuel j = (.error (.apdu c), j + m + 1) := by
  intro m
  induction m with
  | zero =>
      intro fuel j c hb huns herr hc hfuel
      obtain ⟨f, rfl⟩ : ∃ f, fuel = f + 1 := ⟨fuel - 1, by omega⟩
      simp only [pollSteps]
      rw [if_pos ((pollCond_iff j delay budget).mpr (by simpa using hb))]
      simp only [Nat.add_zero] at herr
      rw [herr]
      simp [hc]
  | succ n ih =>
      intro fuel j c hb huns herr hc hfuel
      obtain ⟨f, rfl⟩ : ∃ f, fuel = f + 1 := ⟨fuel - 1, by omega⟩
      simp only [pollSteps]
      have hstep : ((j : ℚ)) * delay < budget := by
        refine lt_of_le_of_lt ?_ hb
        have : (j : ℚ) ≤ ((j + (n + 1) : Nat) : ℚ) := by exact_mod_cast Nat.le_add_right _ _
        exact mul_le_mul_of_nonneg_right this hd
      rw [if_pos ((pollCond_iff j delay budget).mpr hstep)]
      have h0 : op j = .error USE_NOT_SATISFIED := by
        simpa using huns 0 (Nat.succ_pos n)
      rw [h0]
      simp only [if_pos rfl]
      have hres := ih f (j + 1) c
        (by
          have : ((j + 1) + n : Nat) = (j + (n + 1) : Nat) := by omega
          rw [this]; exact hb)
        (fun i hi => by
          have : ((j + 1) + i : Nat) = (j + (i + 1) : Nat) := by omega
          rw [this]; exact huns (i + 1) (by omega))
        (by
          have : ((j + 1) + n : Nat) = (j + (n + 1) : Nat) := by omega
          rw [this]; exact herr)
        hc
        (by omega)
      have heq2 : (j + 1) + n + 1 = j + (n + 1) + 1 := by omega
      rw [heq2] at hres
      exact hres

theorem pollSteps_timeout (op : Nat → Except Nat α) (delay budget : ℚ) :
    ∀ fuel j,
      (∀ i, (((j + i : Nat) : ℚ) * delay < budget) →
        op (j + i) = .error USE_NOT_SATISFIED) →
      (pollSteps op delay budget fuel j).1 = .error (.client .TIMEOUT) := by
  intro fuel
  induction fuel with
  | zero => intro j _; simp [pollSteps]
  | succ n ih =>
      intro j h
      simp only [pollSteps]
      split
      next hcond =>
        have h0 : op j = .error USE_NOT_SATISFIED := by
          have := h 0 (by simpa using (pollCond_iff j delay budget).mp hcond)
          simpa using this
        rw [h0]
        simp only [if_pos rfl]
        exact ih (j + 1) (fun i hi => by
          have heq : ((j + 1) + i : Nat) = (j + (i + 1) : Nat) := by omega
          rw [heq]
          exact h (i + 1) (by rw [← heq]; exact hi))
      next => simp

theorem pollSteps_ok_exists (op : Nat → Except Nat α) (delay budget : ℚ) :
    ∀ fuel j a, (pollSteps op delay budget fuel j).1 = .ok a →
      ∃ k, op k = .ok a := by
  intro fuel
  induction fuel with
  | zero => intro j a h; simp [pollSteps] at h
  | succ n ih =>
      intro j a h
      simp only [pollSteps] at h
      split at h
      · cases hop : op j with
        | ok b =>
            simp only [hop] at h
            simp at h
            exact ⟨j, by rw [hop, h]⟩
        | error c =>
            simp only [hop] at h
            by_cases hc : c = USE_NOT_SATISFIED
            · rw [if_pos hc] at h
              exact ih (j + 1) a h
            · rw [if_neg hc] at h
              simp at h
      · simp at h

theorem callPolling_ok_exists (delay : ℚ) (timeout : Option ℚ)
    (op : Nat → Except Nat α) (a : α)
    (h : (callPolling delay timeout op).1 = .ok a) : ∃ k, op k = .ok a :=
  pollSteps_ok_exists op delay (pyTimeoutBudget timeout)
    (pollFuel delay (pyTimeoutBudget timeout)) 0 a h

/-- C2 counterexample: with `timeout = 0` the polling driver does NOT stop
after one attempt, and does not raise `TIMEOUT` when the first attempt
fails with `USE_NOT_SATISFIED` — `timeout or 30` in the source treats `0`
as unset, so the driver retries under the default 30-second budget and
here returns the second attempt's success after two attempts. -/
theorem c2_counterexample :
    (callPolling (mkRat 1 4) (some 0) c2op).2 = 2 ∧
    (callPolling (mkRat 1 4) (some 0) c2op).1 ≠ .error (.client .TIMEOUT) := by
  decide

/-- C2 (amended): `timeout = 0` is treated exactly like passing no timeout
at all — the budget falls back to the default 30 seconds and the polling
driver behaves identically to a `timeout = None` run. -/
theorem c2_amended (delay : ℚ) (op : Nat → Except Nat α) :
    pyTimeoutBudget (some 0) = 30 ∧
    callPolling delay (some 0) op = callPolling delay none op := by
  constructor
  · simp [pyTimeoutBudget]
  · simp [callPolling, pyTimeoutBudget]

/-- C3: the polling driver returns the operation's result on the first
successful attempt; a `USE_NOT_SATISFIED` failure inside the budget leads
to a retry (so a later in-budget outcome decides the call); any other
`ApduError` of the operation propagates unchanged; when every in-budget
attempt fails with `USE_NOT_SATISFIED` the driver raises `TIMEOUT`; and
`USE_NOT_SATISFIED` is never surfaced to the caller. -/
theorem c3_polling_spec (delay : ℚ) (timeout : Option ℚ)
    (op : Nat → Except Nat α) (hd : 0 < delay) :
    (∀ (k : Nat) (a : α), (∀ i, i < k → op i = .error USE_NOT_SATISFIED) →
        ((k : ℚ) * delay < pyTimeoutBudget timeout) → op k = .ok a →
        callPolling delay timeout op = (.ok a, k + 1)) ∧
    (∀ (k : Nat) (c : Nat), (∀ i, i < k → op i = .error USE_NOT_SATISFIED) →
        ((k : ℚ) * delay < pyTimeoutBudget timeout) → op k = .error c →
        c ≠ USE_NOT_SATISFIED →
        callPolling delay timeout op = (.error (.apdu c), k + 1)) ∧
    ((∀ (k : Nat), ((k : ℚ) * delay < pyTimeoutBudget timeout) →
        op k = .error USE_NOT_SATISFIED) →
      (callPolling delay timeout op).1 = .error (.client .TIMEOUT)) ∧
    (callPolling delay timeout op).1 ≠ .error (.apdu USE_NOT_SATISFIED) := by
  refine ⟨?_, ?_, ?_, ?_⟩
  · intro k a huns hk hok
    have hfuel : k < pollFuel delay (pyTimeoutBudget timeout) :=
      lt_pollFuel k delay (pyTimeoutBudget timeout) hd hk
    have hrun := pollSteps_run_ok op delay (pyTimeoutBudget timeout) hd.le k
      (pollFuel delay (pyTimeoutBudget timeout)) 0 a
      (by simpa using hk) (fun i hi => by simpa using huns i hi)
      (by simpa using hok) hfuel
    show pollSteps op delay (pyTimeoutBudget timeout)
      (pollFuel delay (pyTimeoutBudget timeout)) 0 = (.ok a, k + 1)
    rw [hrun]
    simp
  · intro k c huns hk herr hc
    have hfuel : k < pollFuel delay (pyTimeoutBudget timeout) :=
      lt_pollFuel k delay (pyTimeoutBudget timeout) hd hk
    have hrun := pollSteps_run_err op delay (pyTimeoutBudget timeout) hd.le k
      (pollFuel delay (pyTimeoutBudget timeout)) 0 c
      (by simpa using hk) (fun i hi => by simpa using huns i hi)
      (by simpa using herr) hc hfuel
    show pollSteps op delay (pyTimeoutBudget timeout)
      (pollFuel delay (pyTimeoutBudget timeout)) 0 = (.error (.apdu c), k + 1)
    rw [hrun]
    simp
  · intro h
    exact pollSteps_timeout op delay (pyTimeoutBudget timeout)
      (pollFuel delay (pyTimeoutBudget timeout)) 0
      (fun i hi => by simpa using h i (by simpa using hi))
  · exact pollSteps_ne_uns op delay (pyTimeoutBudget timeout)
      (pollFuel delay (pyTimeoutBudget timeout)) 0

/-- Witness for C3 at a concrete input: delay 1/4, budget 2, an operation
failing once with `USE_NOT_SATISFIED` and then succeeding returns its
success after two attempts. -/
theorem c3_polling_spec_witness :
    (0 : ℚ) < mkRat 1 4 ∧ callPolling (mkRat 1 4) (some 2) c2op = (.ok 7, 2) :=
  ⟨by norm_num,
   (c3_polling_spec (mkRat 1 4) (some 2) c2op (by norm_num)).1 1 7
     (fun i hi => by
       have : i = 0 := by omega
       subst this
       rfl)
     (by norm_num [pyTimeoutBudget]) rfl⟩

/-- C6: on the CTAP1 path, `make_credential` fails with
`UNSUPPORTED_OPTION` whenever `rk` or `uv` is requested, and
`get_assertion` fails with `UNSUPPORTED_OPTION` whenever `rk` or `uv` is
requested or the allow list is empty or absent; in each case the failure
is raised before any command is issued to the authenticator (the command
trace is empty). -/
theorem c6_ctap1_unsupported_option (c : Fido2Client1) (cd : ClientData)
    (rp : RpEntity) (ex : Option (List PublicKeyCred)) (rpId : String)
    (al : Option (List PublicKeyCred)) (rk uv : Bool) (t : Option ℚ) :
    ((rk || uv) = true →
      ctap1MakeCredential c cd rp ex rk uv t =
        (.error (.ctap .UNSUPPORTED_OPTION), [])) ∧
    ((rk || uv || !pyListTruthy al) = true →
      ctap1GetAssertion c cd rpId al rk uv t =
        (.error (.ctap .UNSUPPORTED_OPTION), [])) := by
  constructor
  · intro h
    simp [ctap1MakeCredential, h]
  · intro h
    simp [ctap1GetAssertion, h]

/-- Witness for C6 at concrete inputs: `rk = true` rejects the CTAP1
`make_credential`, and an empty allow list rejects the CTAP1
`get_assertion`, both with empty command traces. -/
theorem c6_ctap1_unsupported_option_witness :
    ((true || false) = true ∧
      ctap1MakeCredential cexClient1 cexCD ⟨"example.com"⟩ none true false none =
        (.error (.ctap .UNSUPPORTED_OPTION), [])) ∧
    ((false || false || !pyListTruthy (some ([] : List PublicKeyCred))) = true ∧
      ctap1GetAssertion cexClient1 cexCD "example.com" (some []) false false none =
        (.error (.ctap .UNSUPPORTED_OPTION), [])) :=
  ⟨⟨rfl, (c6_ctap1_unsupported_option cexClient1 cexCD ⟨"example.com"⟩ none
      "example.com" (some []) true false none).1 rfl⟩,
   ⟨rfl, (c6_ctap1_unsupported_option cexClient1 cexCD ⟨"example.com"⟩ none
      "example.com" (some []) false false none).2 rfl⟩⟩

/-- C8 counterexample: building a `ClientData` from a mapping without an
`origin` field raises a Python `KeyError` (from `self.data['origin']` in
`ClientData.__init__`), not the `BAD_REQUEST` client error the claim
expects. -/
theorem c8_counterexample :
    ClientData.build [("typ", JVal.str "x")] = .error (.keyError "origin") ∧
    ClientData.build [("typ", JVal.str "x")] ≠ .error (.client .BAD_REQUEST) := by
  decide

/-- C8 (amended): for every field mapping lacking `origin`, the Client
Data Builder raises a `KeyError` on the missing `origin` key (not
`BAD_REQUEST`). -/
theorem c8_amended (fields : List (String × JVal))
    (h : jLookup "origin" fields = none) :
    ClientData.build fields = .error (.keyError "origin") := by
  simp [ClientData.build, h]

/-- Witness for C8 at a concrete input. -/
theorem c8_amended_witness :
    jLookup "origin" [("typ", JVal.str "x")] = none ∧
    ClientData.build [("typ", JVal.str "x")] = .error (.keyError "origin") :=
  ⟨by decide, c8_amended [("typ", JVal.str "x")] (by decide)⟩

/-- C10: `U2fClient.__init__` assigns `self._verify = verify_app_id` (the
module-level default) regardless of the `verify` argument, so two clients
constructed with different `verify` functions are identical and
`register` and `sign` behave identically for them. -/
theorem c10_verify_param_ignored (ext : VerifyFn) (dev : Ctap1Device)
    (origin : String) (v1 v2 : VerifyFn) (appId challenge : String)
    (reqs : List RegisterRequest) (keys : List RegisteredKey) (t : Option ℚ) :
    U2fClient.init ext dev origin v1 = U2fClient.init ext dev origin v2 ∧
    U2fClient.register (U2fClient.init ext dev origin v1) appId reqs keys t =
      U2fClient.register (U2fClient.init ext dev origin v2) appId reqs keys t ∧
    U2fClient.sign (U2fClient.init ext dev origin v1) appId challenge keys t =
      U2fClient.sign (U2fClient.init ext dev origin v2) appId challenge keys t :=
  ⟨rfl, rfl, rfl⟩

theorem ctap2PinPolicy_next_count (dev : Ctap2Device) (h : Bytes)
    (pin : Option String) (pa : Option Bytes × Option Nat) (tr : List Ctap2Cmd)
    (hpp : ctap2PinPolicy dev h pin = (.ok pa, tr)) :
    tr.count Ctap2Cmd.getNextAssertion = 0 := by
  unfold ctap2PinPolicy at hpp
  split_ifs at hpp
  · cases hpp
    simp [List.count_cons]
  · simp at hpp
  · simp at hpp
  · cases hpp
    simp

/-- C4: on the CTAP2 path of `get_assertion`, when the first assertion
response reports `number_of_credentials = n ≥ 2`, the run makes exactly
`n − 1` `get_next_assertion` calls, appends the responses in call order,
and returns a list of length `n`; a missing (`None`) field is treated as
1 and no `get_next_assertion` call is made. -/
theorem c4_assertion_count (c : Fido2Client2) (cd : ClientData) (rpId : String)
    (rk uv : Bool) (pin : Option String) (l : List Ctap2Assertion)
    (hok : (ctap2GetAssertion c cd rpId rk uv pin).1 = .ok l) :
    (∀ n, c.device.assertResult.number_of_credentials = some n → 2 ≤ n →
      l = c.device.assertResult ::
        (List.range (n - 1)).map c.device.nextAssertions ∧
      l.length = n ∧
      (ctap2GetAssertion c cd rpId rk uv pin).2.count Ctap2Cmd.getNextAssertion
        = n - 1) ∧
    (c.device.assertResult.number_of_credentials = none →
      l = [c.device.assertResult] ∧
      (ctap2GetAssertion c cd rpId rk uv pin).2.count Ctap2Cmd.getNextAssertion
        = 0) := by
  rcases hpp : ctap2PinPolicy c.device cd.hash pin with ⟨res, tr⟩
  cases res with
  | error e =>
      rw [show ctap2GetAssertion c cd rpId rk uv pin =
          (.error e, Ctap2Cmd.getInfo :: tr) by
        simp only [ctap2GetAssertion, hpp]] at hok
      simp at hok
  | ok pa =>
      have htr := ctap2PinPolicy_next_count c.device cd.hash pin pa tr hpp
      have hrun : ctap2GetAssertion c cd rpId rk uv pin =
          (.ok (c.device.assertResult ::
            (List.range (pyOrOne c.device.assertResult.number_of_credentials - 1)).map
              c.device.nextAssertions),
           Ctap2Cmd.getInfo :: tr ++
             [Ctap2Cmd.getAssertion rpId cd.hash pa.1 pa.2 (mkOptions rk uv)] ++
             List.replicate
               (pyOrOne c.device.assertResult.number_of_credentials - 1)
               Ctap2Cmd.getNextAssertion) := by
        simp only [ctap2GetAssertion, hpp]
      rw [hrun] at hok
      simp only [Except.ok.injEq] at hok
      constructor
      · intro n hn h2
        have hone : pyOrOne c.device.assertResult.number_of_credentials = n := by
          simp [pyOrOne, hn]
          omega
        refine ⟨by rw [← hok, hone], ?_, ?_⟩
        · rw [← hok, hone]
          simp
          omega
        · rw [hrun, hone]
          simp [List.count_cons, List.count_append, List.count_replicate, htr]
      · intro hn
        have hone : pyOrOne c.device.assertResult.number_of_credentials = 1 := by
          simp [pyOrOne, hn]
        refine ⟨by rw [← hok, hone]; simp, ?_⟩
        rw [hrun, hone]
        simp [List.count_cons, List.count_append, List.count_replicate, htr]

/-- Witness for C4 at a concrete input: a device reporting
`number_of_credentials = 3` yields a three-element list in call order. -/
theorem c4_assertion_count_witness :
    (ctap2GetAssertion cexClient2 cexCD "example.com" false false none).1 =
      .ok c4list ∧
    c4list = cexClient2.device.assertResult ::
      (List.range (3 - 1)).map cexClient2.device.nextAssertions :=
  ⟨by decide,
   ((c4_assertion_count cexClient2 cexCD "example.com" false false none c4list
       (by decide)).1 3 (by decide) (by decide)).1⟩

/-- C5: on both CTAP2 paths, a supplied PIN with no device support for
PIN protocol 1 raises the configuration `ValueError` with only `get_info`
issued (so before any `make_credential`/`get_assertion` command); a set
device PIN (`clientPin` true) with no supplied PIN likewise raises the
"PIN required" `ValueError` with only `get_info` issued; and a supplied,
supported PIN sends the main command with `pin_auth` equal to the first
16 bytes of HMAC-SHA-256 of the PIN token over the client data hash and
`pin_protocol = 1`. -/
theorem c5_ctap2_pin_policy (c : Fido2Client2) (cd : ClientData) (rpId : String)
    (rk uv : Bool) :
    (∀ pin, pyStrTruthy pin = true → 1 ∉ c.device.info.pin_protocols →
      ctap2MakeCredential c cd rk uv pin =
        (.error (.valueError "Device does not support PIN protocol 1!"),
         [Ctap2Cmd.getInfo]) ∧
      ctap2GetAssertion c cd rpId rk uv pin =
        (.error (.valueError "Device does not support PIN protocol 1!"),
         [Ctap2Cmd.getInfo])) ∧
    (∀ pin, pyStrTruthy pin = false →
      pyOptBoolTruthy c.device.info.clientPin = true →
      ctap2MakeCredential c cd rk uv pin =
        (.error (.valueError "PIN required!"), [Ctap2Cmd.getInfo]) ∧
      ctap2GetAssertion c cd rpId rk uv pin =
        (.error (.valueError "PIN required!"), [Ctap2Cmd.getInfo])) ∧
    (∀ s, s ≠ "" → 1 ∈ c.device.info.pin_protocols →
      (ctap2MakeCredential c cd rk uv (some s)).2 =
        [Ctap2Cmd.getInfo, Ctap2Cmd.getPinToken s,
         Ctap2Cmd.makeCredential cd.hash
           (some ((hmacSha256 (c.device.pinToken s) cd.hash).take 16)) (some 1)
           (mkOptions rk uv)] ∧
      (ctap2GetAssertion c cd rpId rk uv (some s)).2 =
        Ctap2Cmd.getInfo :: Ctap2Cmd.getPinToken s ::
          Ctap2Cmd.getAssertion rpId cd.hash
            (some ((hmacSha256 (c.device.pinToken s) cd.hash).take 16)) (some 1)
            (mkOptions rk uv) ::
          List.replicate
            (pyOrOne c.device.assertResult.number_of_credentials - 1)
            Ctap2Cmd.getNextAssertion) := by
  refine ⟨?_, ?_, ?_⟩
  · intro pin hpin hmem
    constructor
    · simp [ctap2MakeCredential, ctap2PinPolicy, hpin, hmem]
    · simp [ctap2GetAssertion, ctap2PinPolicy, hpin, hmem]
  · intro pin hpin hcp
    constructor
    · simp [ctap2MakeCredential, ctap2PinPolicy, hpin, hcp]
    · simp [ctap2GetAssertion, ctap2PinPolicy, hpin, hcp]
  · intro s hs hmem
    have hpin : pyStrTruthy (some s) = true := by simp [pyStrTruthy, hs]
    constructor
    · simp [ctap2MakeCredential, ctap2PinPolicy, hpin, hmem]
    · simp [ctap2GetAssertion, ctap2PinPolicy, hpin, hmem]

/-- Witness for C5 at a concrete input: a supplied PIN "1234" on a device
supporting PIN protocol 1 issues `make_credential` with the derived
`pin_auth` and `pin_protocol = 1`. -/
theorem c5_ctap2_pin_policy_witness :
    ("1234" ≠ "" ∧ 1 ∈ cexClient2.device.info.pin_protocols) ∧
    (ctap2MakeCredential cexClient2 cexCD false false (some "1234")).2 =
      [Ctap2Cmd.getInfo, Ctap2Cmd.getPinToken "1234",
       Ctap2Cmd.makeCredential cexCD.hash
         (some ((hmacSha256 (cexClient2.device.pinToken "1234") cexCD.hash).take 16))
         (some 1) (mkOptions false false)] :=
  ⟨⟨by decide, by decide⟩,
   ((c5_ctap2_pin_policy cexClient2 cexCD "example.com" false false).2.2 "1234"
     (by decide) (by decide)).1⟩

/-- C1: every successful CTAP1-path `make_credential` returns an
attestation object with `fmt = "fido-u2f"`, authenticator data built on
`app_param = SHA-256(rp.id)` with flags byte 0x41 and signCount 0,
attested credential data carrying a 16-zero-byte aaguid, the registration
response's key handle as credential id and the COSE key map
`{1:2, 3:-7, -1:1, -2: public_key[1:33], -3: public_key[33:65]}`, and
`attStmt = {x5c: [certificate], sig: signature}`. -/
theorem c1_ctap1_attestation (c : Fido2Client1) (cd : ClientData)
    (rp : RpEntity) (ex : Option (List PublicKeyCred)) (rk uv : Bool)
    (t : Option ℚ) (att : AttestationObject)
    (hok : (ctap1MakeCredential c cd rp ex rk uv t).1 = .ok att) :
    att.fmt = "fido-u2f" ∧
    att.authData.rpIdHash = sha256 (strBytes rp.id) ∧
    att.authData.flags = 0x41 ∧
    att.authData.signCount = 0 ∧
    ∃ reg k,
      c.device.registerOutcome cd.hash (sha256 (strBytes rp.id)) k = .ok reg ∧
      att.authData.credData = some
        ⟨zeros16, reg.key_handle,
         [(1, .int 2), (3, .int (-7)), (-1, .int 1),
          (-2, .bytes ((reg.public_key.drop 1).take 32)),
          (-3, .bytes ((reg.public_key.drop 33).take 32))]⟩ ∧
      att.attStmt = ⟨[reg.certificate], reg.signature⟩ := by
  by_cases hrkuv : (rk || uv) = true
  · rw [show ctap1MakeCredential c cd rp ex rk uv t =
        (.error (.ctap .UNSUPPORTED_OPTION), []) by
      simp [ctap1MakeCredential, hrkuv]] at hok
    simp at hok
  · simp only [Bool.not_eq_true] at hrkuv
    rcases hex : excludeProbe c (sha256 (strBytes rp.id)) (ex.getD [])
      with ⟨exr, extr⟩
    cases exr with
    | error e =>
        rw [show ctap1MakeCredential c cd rp ex rk uv t = (.error e, extr) by
          simp [ctap1MakeCredential, hrkuv, hex]] at hok
        simp at hok
    | ok u =>
        rcases hpoll : callPolling c.ctap1_poll_delay t
            (fun k => c.device.registerOutcome cd.hash (sha256 (strBytes rp.id)) k)
          with ⟨pres, pn⟩
        cases pres with
        | error e =>
            rw [show (ctap1MakeCredential c cd rp ex rk uv t).1 = .error e by
              simp [ctap1MakeCredential, hrkuv, hex, hpoll]] at hok
            simp at hok
        | ok reg =>
            have hatt : AttestationObject.create "fido-u2f"
                (AuthenticatorData.create (sha256 (strBytes rp.id)) 0x41 0
                  (some (AttestedCredentialData.create zeros16 reg.key_handle
                    [(1, .int 2), (3, .int (-7)), (-1, .int 1),
                     (-2, .bytes ((reg.public_key.drop 1).take 32)),
                     (-3, .bytes ((reg.public_key.drop 33).take 32))])))
                ⟨[reg.certificate], reg.signature⟩ = att := by
              rw [show (ctap1MakeCredential c cd rp ex rk uv t).1 =
                  .ok (AttestationObject.create "fido-u2f"
                    (AuthenticatorData.create (sha256 (strBytes rp.id)) 0x41 0
                      (some (AttestedCredentialData.create zeros16 reg.key_handle
                        [(1, .int 2), (3, .int (-7)), (-1, .int 1),
                         (-2, .bytes ((reg.public_key.drop 1).take 32)),
                         (-3, .bytes ((reg.public_key.drop 33).take 32))])))
                    ⟨[reg.certificate], reg.signature⟩) by
                simp [ctap1MakeCredential, hrkuv, hex, hpoll]] at hok
              exact Except.ok.inj hok
            obtain ⟨k, hk⟩ := callPolling_ok_exists c.ctap1_poll_delay t
              (fun j => c.device.registerOutcome cd.hash (sha256 (strBytes rp.id)) j)
              reg (by rw [hpoll])
            rw [← hatt]
            exact ⟨rfl, rfl, rfl, rfl, reg, k, hk, rfl, rfl⟩

/-- Witness for C1 at a concrete input: a successful CTAP1
`make_credential` run produces exactly the synthesised `fido-u2f`
attestation object. -/
theorem c1_ctap1_attestation_witness :
    (ctap1MakeCredential c1client cexCD ⟨"example.com"⟩ none false false
      none).1 = .ok c1att ∧
    c1att.fmt = "fido-u2f" :=
  ⟨by decide,
   (c1_ctap1_attestation c1client cexCD ⟨"example.com"⟩ none false false none
     c1att (by decide)).1⟩

theorem register_fst_depends (c : U2fClient) (appId : String)
    (reqs : List RegisterRequest) (t : Option ℚ)
    (keys1 keys2 : List RegisteredKey)
    (hv0 : verifyIdCheck c.verify appId c.origin = .ok ())
    (h : (registerCheckKeys c appId keys1).1 = (registerCheckKeys c appId keys2).1) :
    (U2fClient.register c appId reqs keys1 t).1 =
      (U2fClient.register c appId reqs keys2 t).1 := by
  rcases h1 : registerCheckKeys c appId keys1 with ⟨r1, tr1⟩
  rcases h2 : registerCheckKeys c appId keys2 with ⟨r2, tr2⟩
  rw [h1, h2] at h
  simp only at h
  subst h
  cases r1 with
  | error e => simp only [U2fClient.register, hv0, h1, h2]
  | ok u =>
      simp only [U2fClient.register, hv0, h1, h2]
      cases hfm : firstMatchingChallenge c.device.version reqs with
      | none => simp
      | some ch =>
          simp only
          cases hcd : ClientData.build
              [("typ", .str "navigator.id.finishEnrollment"),
               ("challenge", .str ch), ("origin", .str c.origin)] with
          | error e => simp
          | ok cd =>
              simp only
              rcases hpoll : callPolling c.poll_delay t
                  (fun k => c.device.registerOutcome cd.hash
                    (sha256 (strBytes appId)) k) with ⟨pres, pn⟩
              cases pres with
              | error e => simp
              | ok regData => simp

/-- C7: in `U2fClient.register`, a registered key whose version does not
match the device version is skipped outright; for a version-matching key
(whose app id passes verification) a check-only authenticate with the
32-zero-byte dummy challenge is issued, and if that probe succeeds or
fails with `USE_NOT_SATISFIED`, register raises `DEVICE_INELIGIBLE` with
no register command ever issued; any other typed transport failure of the
probe is ignored and the remaining keys decide the result. -/
theorem c7_register_check_only (c : U2fClient) (appId : String)
    (reqs : List RegisterRequest) (key : RegisteredKey)
    (rest : List RegisteredKey) (t : Option ℚ)
    (hv0 : verifyIdCheck c.verify appId c.origin = .ok ()) :
    (key.version ≠ c.device.version →
      U2fClient.register c appId reqs (key :: rest) t =
        U2fClient.register c appId reqs rest t) ∧
    (key.version = c.device.version →
      verifyIdCheck c.verify (key.appId.getD appId) c.origin = .ok () →
      ((∃ resp, c.device.authOutcome zeros32
          (sha256 (strBytes (key.appId.getD appId))) key.keyHandle true 0 =
          .ok resp) ∨
        c.device.authOutcome zeros32 (sha256 (strBytes (key.appId.getD appId)))
          key.keyHandle true 0 = .error USE_NOT_SATISFIED) →
      (U2fClient.register c appId reqs (key :: rest) t).1 =
        .error (.client .DEVICE_INELIGIBLE) ∧
      (∀ ch ap, Ctap1Cmd.register ch ap ∉
        (U2fClient.register c appId reqs (key :: rest) t).2) ∧
      Ctap1Cmd.authenticate zeros32 (sha256 (strBytes (key.appId.getD appId)))
        key.keyHandle true ∈ (U2fClient.register c appId reqs (key :: rest) t).2) ∧
    (key.version = c.device.version →
      verifyIdCheck c.verify (key.appId.getD appId) c.origin = .ok () →
      ∀ code, c.device.authOutcome zeros32
          (sha256 (strBytes (key.appId.getD appId))) key.keyHandle true 0 =
          .error code →
        code ≠ USE_NOT_SATISFIED →
        (U2fClient.register c appId reqs (key :: rest) t).1 =
          (U2fClient.register c appId reqs rest t).1) := by
  refine ⟨?_, ?_, ?_⟩
  · intro hne
    have hskip : registerCheckKeys c appId (key :: rest) =
        registerCheckKeys c appId rest := by
      simp [registerCheckKeys, hne]
    simp only [U2fClient.register, hv0, hskip]
  · intro hver hkv hout
    have hck : registerCheckKeys c appId (key :: rest) =
        (.error (.client .DEVICE_INELIGIBLE),
         [Ctap1Cmd.authenticate zeros32
            (sha256 (strBytes (key.appId.getD appId))) key.keyHandle true]) := by
      rcases hout with ⟨resp, hresp⟩ | huns
      · simp [registerCheckKeys, hver, hkv, hresp]
      · simp [registerCheckKeys, hver, hkv, huns]
    have hreg : U2fClient.register c appId reqs (key :: rest) t =
        (.error (.client .DEVICE_INELIGIBLE),
         [Ctap1Cmd.getVersion,
          Ctap1Cmd.authenticate zeros32
            (sha256 (strBytes (key.appId.getD appId))) key.keyHandle true]) := by
      simp only [U2fClient.register, hv0, hck]
    rw [hreg]
    refine ⟨rfl, ?_, by simp⟩
    intro ch ap
    simp
  · intro hver hkv code hcode hne
    rcases hr : registerCheckKeys c appId rest with ⟨rres, rtr⟩
    have hck : registerCheckKeys c appId (key :: rest) =
        (rres, Ctap1Cmd.authenticate zeros32
          (sha256 (strBytes (key.appId.getD appId))) key.keyHandle true :: rtr) := by
      simp [registerCheckKeys, hver, hkv, hcode, hne, hr]
    exact register_fst_depends c appId reqs t (key :: rest) rest hv0
      (by rw [hck, hr])

/-- Witness for C7 at a concrete input: the check-only probe answers
`USE_NOT_SATISFIED`, so register raises `DEVICE_INELIGIBLE`. -/
theorem c7_register_check_only_witness :
    c7client.device.authOutcome zeros32
      (sha256 (strBytes "https://example.com")) [1, 2] true 0 =
      .error USE_NOT_SATISFIED ∧
    (U2fClient.register c7client "https://example.com" [] [c7key] none).1 =
      .error (.client .DEVICE_INELIGIBLE) :=
  ⟨rfl,
   ((c7_register_check_only c7client "https://example.com" [] c7key [] none
     rfl).2.1 rfl rfl (Or.inr rfl)).1⟩

theorem excludeProbe_trace (c : Fido2Client1) (ap : Bytes) :
    ∀ creds cmd, cmd ∈ (excludeProbe c ap creds).2 →
      ∃ kh, cmd = Ctap1Cmd.authenticate zeros32 ap kh true := by
  intro creds
  induction creds with
  | nil => intro cmd h; simp [excludeProbe] at h
  | cons cred rest ih =>
      intro cmd h
      simp only [excludeProbe] at h
      cases hout : c.device.authOutcome zeros32 ap cred.id true 0 with
      | ok r =>
          simp only [hout] at h
          simp at h
          exact ⟨cred.id, h⟩
      | error code =>
          simp only [hout] at h
          by_cases hc : code = USE_NOT_SATISFIED
          · rw [if_pos hc] at h
            simp at h
            exact ⟨cred.id, h⟩
          · rw [if_neg hc] at h
            simp only [List.mem_cons] at h
            rcases h with h | h
            · exact ⟨cred.id, h⟩
            · exact ih cmd h

theorem registerCheckKeys_trace (c : U2fClient) (appId : String) :
    ∀ keys cmd, cmd ∈ (registerCheckKeys c appId keys).2 →
      ∃ ap kh, cmd = Ctap1Cmd.authenticate zeros32 ap kh true := by
  intro keys
  induction keys with
  | nil => intro cmd h; simp [registerCheckKeys] at h
  | cons key rest ih =>
      intro cmd h
      simp only [registerCheckKeys] at h
      by_cases hver : key.version = c.device.version
      · rw [if_pos hver] at h
        cases hv : verifyIdCheck c.verify (key.appId.getD appId) c.origin with
        | error e => simp only [hv] at h; simp at h
        | ok u =>
            simp only [hv] at h
            cases hout : c.device.authOutcome zeros32
                (sha256 (strBytes (key.appId.getD appId))) key.keyHandle true 0 with
            | ok r =>
                simp only [hout] at h
                simp at h
                exact ⟨_, key.keyHandle, h⟩
            | error code =>
                simp only [hout] at h
                by_cases hc : code = USE_NOT_SATISFIED
                · rw [if_pos hc] at h
                  simp at h
                  exact ⟨_, key.keyHandle, h⟩
                · rw [if_neg hc] at h
                  simp only [List.mem_cons] at h
                  rcases h with h | h
                  · exact ⟨_, key.keyHandle, h⟩
                  · exact ih cmd h
      · rw [if_neg hver] at h
        exact ih cmd h

theorem signLoop_trace (c : U2fClient) (cd : ClientData) (appId : String)
    (t : Option ℚ) :
    ∀ keys cmd, cmd ∈ (signLoop c cd appId t keys).2 →
      ∃ ap kh, cmd = Ctap1Cmd.authenticate cd.hash ap kh false := by
  intro keys
  induction keys with
  | nil => intro cmd h; simp [signLoop] at h
  | cons key rest ih =>
      intro cmd h
      simp only [signLoop] at h
      by_cases hver : key.version = c.device.version
      · rw [if_pos hver] at h
        cases hv : verifyIdCheck c.verify (key.appId.getD appId) c.origin with
        | error e => simp only [hv] at h; simp at h
        | ok u =>
            simp only [hv] at h
            rcases hpoll : callPolling c.poll_delay t
                (fun k => c.device.authOutcome cd.hash
                  (sha256 (strBytes (key.appId.getD appId))) key.keyHandle false k)
              with ⟨pres, pn⟩
            simp only [hpoll] at h
            cases pres with
            | ok resp =>
                simp only at h
                exact ⟨_, key.keyHandle, List.eq_of_mem_replicate h⟩
            | error e =>
                cases e with
                | apdu code =>
                    simp only [List.mem_append] at h
                    rcases h with h | h
                    · exact ⟨_, key.keyHandle, List.eq_of_mem_replicate h⟩
                    · exact ih cmd h
                | client code =>
                    simp only at h
                    exact ⟨_, key.keyHandle, List.eq_of_mem_replicate h⟩
                | ctap code =>
                    simp only at h
                    exact ⟨_, key.keyHandle, List.eq_of_mem_replicate h⟩
                | valueError m =>
                    simp only at h
                    exact ⟨_, key.keyHandle, List.eq_of_mem_replicate h⟩
                | keyError k2 =>
                    simp only at h
                    exact ⟨_, key.keyHandle, List.eq_of_mem_replicate h⟩
      · rw [if_neg hver] at h
        exact ih cmd h

theorem assertLoop_trace (c : Fido2Client1) (cp ap : Bytes) (t : Option ℚ) :
    ∀ creds cmd, cmd ∈ (assertLoop c cp ap t creds).2 →
      ∃ kh, cmd = Ctap1Cmd.authenticate cp ap kh false := by
  intro creds
  induction creds with
  | nil => intro cmd h; simp [assertLoop] at h
  | cons cred rest ih =>
      intro cmd h
      simp only [assertLoop] at h
      rcases hpoll : callPolling c.ctap1_poll_delay t
          (fun k => c.device.authOutcome cp ap cred.id false k) with ⟨pres, pn⟩
      simp only [hpoll] at h
      cases pres with
      | ok resp =>
          simp only at h
          exact ⟨cred.id, List.eq_of_mem_replicate h⟩
      | error e =>
          cases e with
          | apdu code =>
              simp only [List.mem_append] at h
              rcases h with h | h
              · exact ⟨cred.id, List.eq_of_mem_replicate h⟩
              · exact ih cmd h
          | client code =>
              simp only at h
              exact ⟨cred.id, List.eq_of_mem_replicate h⟩
          | ctap code =>
              simp only at h
              exact ⟨cred.id, List.eq_of_mem_replicate h⟩
          | valueError m =>
              simp only at h
              exact ⟨cred.id, List.eq_of_mem_replicate h⟩
          | keyError k2 =>
              simp only at h
              exact ⟨cred.id, List.eq_of_mem_replicate h⟩

theorem clientData_build_sign (origin ch : String) :
    ClientData.build [("typ", .str "navigator.id.getAssertion"),
      ("challenge", .str ch), ("origin", .str origin)] =
      .ok (u2fSignClientData origin ch) := by
  simp [ClientData.build, jLookup, u2fSignClientData]

theorem clientData_build_reg (origin ch : String) :
    ClientData.build [("typ", .str "navigator.id.finishEnrollment"),
      ("challenge", .str ch), ("origin", .str origin)] =
      .ok (u2fRegisterClientData origin ch) := by
  simp [ClientData.build, jLookup, u2fRegisterClientData]

/-- C9 (amended): in every CTAP1 ceremony (`U2fClient.register`,
`U2fClient.sign`, CTAP1-path `make_credential` and `get_assertion`),
every non-check-only `register`/`authenticate` command carries the
ceremony's client data hash as its challenge parameter, while every
check-only authenticate probe (registered-key and exclude-list probing)
carries the 32-zero-byte dummy challenge instead. -/
theorem c9_amended :
    (∀ (c : Fido2Client1) (cd : ClientData) (rp : RpEntity)
        (ex : Option (List PublicKeyCred)) (rk uv : Bool) (t : Option ℚ)
        (cmd : Ctap1Cmd), cmd ∈ (ctap1MakeCredential c cd rp ex rk uv t).2 →
      challengeConforms cd.hash cmd) ∧
    (∀ (c : Fido2Client1) (cd : ClientData) (rpId : String)
        (al : Option (List PublicKeyCred)) (rk uv : Bool) (t : Option ℚ)
        (cmd : Ctap1Cmd), cmd ∈ (ctap1GetAssertion c cd rpId al rk uv t).2 →
      challengeConforms cd.hash cmd) ∧
    (∀ (c : U2fClient) (appId challenge : String) (keys : List RegisteredKey)
        (t : Option ℚ) (cmd : Ctap1Cmd),
      cmd ∈ (U2fClient.sign c appId challenge keys t).2 →
      challengeConforms (u2fSignClientData c.origin challenge).hash cmd) ∧
    (∀ (c : U2fClient) (appId : String) (reqs : List RegisterRequest)
        (keys : List RegisteredKey) (t : Option ℚ) (chSel : String),
      firstMatchingChallenge c.device.version reqs = some chSel →
      ∀ cmd, cmd ∈ (U2fClient.register c appId reqs keys t).2 →
      challengeConforms (u2fRegisterClientData c.origin chSel).hash cmd) ∧
    (∀ (c : U2fClient) (appId : String) (reqs : List RegisterRequest)
        (keys : List RegisteredKey) (t : Option ℚ) (cmd : Ctap1Cmd),
      cmd ∈ (U2fClient.register c appId reqs keys t).2 →
      ∀ ch ap kh, cmd = Ctap1Cmd.authenticate ch ap kh true → ch = zeros32) := by
  refine ⟨?_, ?_, ?_, ?_, ?_⟩
  · intro c cd rp ex rk uv t cmd hmem
    by_cases hrkuv : (rk || uv) = true
    · rw [show ctap1MakeCredential c cd rp ex rk uv t =
          (.error (.ctap .UNSUPPORTED_OPTION), []) by
        simp [ctap1MakeCredential, hrkuv]] at hmem
      simp at hmem
    · simp only [Bool.not_eq_true] at hrkuv
      rcases hex : excludeProbe c (sha256 (strBytes rp.id)) (ex.getD [])
        with ⟨exr, extr⟩
      cases exr with
      | error e =>
          rw [show (ctap1MakeCredential c cd rp ex rk uv t).2 = extr by
            simp [ctap1MakeCredential, hrkuv, hex]] at hmem
          obtain ⟨kh, rfl⟩ := excludeProbe_trace c (sha256 (strBytes rp.id))
            (ex.getD []) cmd (by rw [hex]; exact hmem)
          simp [challengeConforms]
      | ok u =>
          rcases hpoll : callPolling c.ctap1_poll_delay t
              (fun k => c.device.registerOutcome cd.hash
                (sha256 (strBytes rp.id)) k) with ⟨pres, pn⟩
          have htr : (ctap1MakeCredential c cd rp ex rk uv t).2 =
              extr ++ List.replicate pn
                (Ctap1Cmd.register cd.hash (sha256 (strBytes rp.id))) := by
            cases pres with
            | error e => simp [ctap1MakeCredential, hrkuv, hex, hpoll]
            | ok reg => simp [ctap1MakeCredential, hrkuv, hex, hpoll]
          rw [htr] at hmem
          rcases List.mem_append.mp hmem with h | h
          · obtain ⟨kh, rfl⟩ := excludeProbe_trace c (sha256 (strBytes rp.id))
              (ex.getD []) cmd (by rw [hex]; exact h)
            simp [challengeConforms]
          · rw [List.eq_of_mem_replicate h]
            simp [challengeConforms]
  · intro c cd rpId al rk uv t cmd hmem
    by_cases hcond : (rk || uv || !pyListTruthy al) = true
    · rw [show ctap1GetAssertion c cd rpId al rk uv t =
          (.error (.ctap .UNSUPPORTED_OPTION), []) by
        simp only [ctap1GetAssertion, if_pos hcond]] at hmem
      simp at hmem
    · rw [show (ctap1GetAssertion c cd rpId al rk uv t).2 =
          (assertLoop c cd.hash (sha256 (strBytes rpId)) t (al.getD [])).2 by
        simp only [ctap1GetAssertion, if_neg hcond]] at hmem
      obtain ⟨kh, rfl⟩ := assertLoop_trace c _ _ t _ cmd hmem
      simp [challengeConforms]
  · intro c appId challenge keys t cmd hmem
    rcases hsl : signLoop c (u2fSignClientData c.origin challenge) appId t keys
      with ⟨sres, str⟩
    have htr : (U2fClient.sign c appId challenge keys t).2 =
        Ctap1Cmd.getVersion :: str := by
      cases sres with
      | error e => simp [U2fClient.sign, clientData_build_sign, hsl]
      | ok rk2 => simp [U2fClient.sign, clientData_build_sign, hsl]
    rw [htr] at hmem
    rcases List.mem_cons.mp hmem with rfl | h
    · trivial
    · obtain ⟨ap, kh, rfl⟩ := signLoop_trace c
        (u2fSignClientData c.origin challenge) appId t keys cmd
        (by rw [hsl]; exact h)
      simp [challengeConforms]
  · intro c appId reqs keys t chSel hsel cmd hmem
    cases hv : verifyIdCheck c.verify appId c.origin with
    | error e =>
        rw [show (U2fClient.register c appId reqs keys t).2 = [] by
          simp [U2fClient.register, hv]] at hmem
        simp at hmem
    | ok u =>
        rcases hck : registerCheckKeys c appId keys with ⟨ckr, cktr⟩
        cases ckr with
        | error e =>
            rw [show (U2fClient.register c appId reqs keys t).2 =
                Ctap1Cmd.getVersion :: cktr by
              simp [U2fClient.register, hv, hck]] at hmem
            rcases List.mem_cons.mp hmem with rfl | h
            · trivial
            · obtain ⟨ap2, kh, rfl⟩ := registerCheckKeys_trace c appId keys cmd
                (by rw [hck]; exact h)
              simp [challengeConforms]
        | ok u2 =>
            rcases hpoll : callPolling c.poll_delay t
                (fun k => c.device.registerOutcome
                  (u2fRegisterClientData c.origin chSel).hash
                  (sha256 (strBytes appId)) k) with ⟨pres, pn⟩
            have htr : (U2fClient.register c appId reqs keys t).2 =
                Ctap1Cmd.getVersion :: cktr ++ List.replicate pn
                  (Ctap1Cmd.register (u2fRegisterClientData c.origin chSel).hash
                    (sha256 (strBytes appId))) := by
              cases pres with
              | error e =>
                  simp [U2fClient.register, hv, hck, hsel, clientData_build_reg,
                    hpoll]
              | ok reg =>
                  simp [U2fClient.register, hv, hck, hsel, clientData_build_reg,
                    hpoll]
            rw [htr] at hmem
            rcases List.mem_cons.mp hmem with rfl | h
            · trivial
            · rcases List.mem_append.mp h with h2 | h2
              · obtain ⟨ap2, kh, rfl⟩ := registerCheckKeys_trace c appId keys cmd
                  (by rw [hck]; exact h2)
                simp [challengeConforms]
              · rw [List.eq_of_mem_replicate h2]
                simp [challengeConforms]
  · intro c appId reqs keys t cmd hmem ch ap kh hcmd
    subst hcmd
    cases hv : verifyIdCheck c.verify appId c.origin with
    | error e =>
        rw [show (U2fClient.register c appId reqs keys t).2 = [] by
          simp [U2fClient.register, hv]] at hmem
        simp at hmem
    | ok u =>
        rcases hck : registerCheckKeys c appId keys with ⟨ckr, cktr⟩
        have hfromck : Ctap1Cmd.authenticate ch ap kh true ∈ cktr → ch = zeros32 := by
          intro h2
          obtain ⟨ap2, kh2, heq⟩ := registerCheckKeys_trace c appId keys _
            (by rw [hck]; exact h2)
          simp only [Ctap1Cmd.authenticate.injEq] at heq
          exact heq.1
        cases ckr with
        | error e =>
            rw [show (U2fClient.register c appId reqs keys t).2 =
                Ctap1Cmd.getVersion :: cktr by
              simp [U2fClient.register, hv, hck]] at hmem
            rcases List.mem_cons.mp hmem with heq | h
            · simp at heq
            · exact hfromck h
        | ok u2 =>
            cases hsel : firstMatchingChallenge c.device.version reqs with
            | none =>
                rw [show (U2fClient.register c appId reqs keys t).2 =
                    Ctap1Cmd.getVersion :: cktr by
                  simp [U2fClient.register, hv, hck, hsel]] at hmem
                rcases List.mem_cons.mp hmem with heq | h
                · simp at heq
                · exact hfromck h
            | some chSel =>
                rcases hpoll : callPolling c.poll_delay t
                    (fun k => c.device.registerOutcome
                      (u2fRegisterClientData c.origin chSel).hash
                      (sha256 (strBytes appId)) k) with ⟨pres, pn⟩
                have htr : (U2fClient.register c appId reqs keys t).2 =
                    Ctap1Cmd.getVersion :: cktr ++ List.replicate pn
                      (Ctap1Cmd.register
                        (u2fRegisterClientData c.origin chSel).hash
                        (sha256 (strBytes appId))) := by
                  cases pres with
                  | error e =>
                      simp [U2fClient.register, hv, hck, hsel,
                        clientData_build_reg, hpoll]
                  | ok reg =>
                      simp [U2fClient.register, hv, hck, hsel,
                        clientData_build_reg, hpoll]
                rw [htr] at hmem
                rcases List.mem_cons.mp hmem with heq | h
                · simp at heq
                · rcases List.mem_append.mp h with h2 | h2
                  · exact hfromck h2
                  · have := List.eq_of_mem_replicate h2
                    simp at this

/-- C9 counterexample: in a concrete CTAP1-path `make_credential` run
with one exclude-list entry, the check-only authenticate probe issued for
that entry carries the 32-zero-byte dummy as its challenge parameter,
which differs from `client_data.hash` — so not every challenge parameter
fed to the authenticator equals the client data hash. -/
theorem c9_counterexample :
    Ctap1Cmd.authenticate zeros32 (sha256 (strBytes "example.com")) [1, 2] true ∈
      (ctap1MakeCredential c1client cexCD ⟨"example.com"⟩ (some [c9cred])
        false false none).2 ∧
    zeros32 ≠ cexCD.hash := by
  decide

/-- Witness for C9 (amended) at a concrete input: the non-check-only
register command of the same run carries exactly the client data hash. -/
theorem c9_amended_witness :
    Ctap1Cmd.register cexCD.hash (sha256 (strBytes "example.com")) ∈
      (ctap1MakeCredential c1client cexCD ⟨"example.com"⟩ (some [c9cred])
        false false none).2 ∧
    challengeConforms cexCD.hash
      (Ctap1Cmd.register cexCD.hash (sha256 (strBytes "example.com"))) :=
  ⟨by decide,
   c9_amended.1 c1client cexCD ⟨"example.com"⟩ (some [c9cred]) false false none
     (Ctap1Cmd.register cexCD.hash (sha256 (strBytes "example.com")))
     (by decide)⟩

